import Mathlib

/-!
# Verification of the notisense notification service

Shallow embedding of the notification data model and the operations of
`src/notisense_api` (email provider retry and chunked bulk send, worker batch
claim and processing, service-side result aggregation and intake validation),
with theorems checking the specified behaviour.
-/

set_option maxRecDepth 4000

/-- Lifecycle of a notification, from
`domain/enums/notification_status.py` (`NotificationStatus`).
The PARTIAL member of the Python enum is modelled by the constructor
`sentToSome` because its source name is a Lean keyword. -/
inductive NotificationStatus where
  | pending
  | queued
  | processing
  | sent
  | sentToSome
  | failed
  | retrying
  | cancelled
  | scheduled
  deriving DecidableEq, BEq

/-- A row of the `notifications` table, from
`domain/entities/notification.py` (`Notification`).  Timestamps are modelled
as integers; `id` (a UUID string in the code) as a `String`.  Columns not
read or written by the verified operations (`provider_message_id`,
`template_code`, `payload`, soft-delete bookkeeping) are omitted. -/
structure Notification where
  id : String
  subject : String
  message : String
  recipients : List String
  status : NotificationStatus
  priority : Int
  scheduledAt : Option Int
  sentAt : Option Int
  attemptCount : Nat
  lastAttemptAt : Option Int
  lastError : Option String
  createdAt : Int
  deriving DecidableEq

/-! ## Email provider: retry with exponential backoff
(`infrastructure/providers/default/email.py`, `_retry`). -/

/-- Core loop of `_retry`.  The operation `op` is modelled by the outcome of
its k-th invocation (0-indexed): `Except.ok` a result or `Except.error` the
exception it raises.  `retryRun op n calls lastExc` runs up to `n` more
iterations of the `for i in range(attempts)` loop, where `calls` invocations
have already been made and `lastExc` is the current value of `last_exc`
(`none` models Python `None`).  It returns the final outcome together with
the total number of invocations of the operation; `Except.error none`
models the `raise last_exc` with `last_exc` still `None`. -/
def retryRun {E A : Type} (op : Nat → Except E A) :
    Nat → Nat → Option E → Except (Option E) A × Nat
  | 0, calls, lastExc => (Except.error lastExc, calls)
  | n + 1, calls, _ =>
    match op calls with
    | Except.ok a => (Except.ok a, calls + 1)
    | Except.error e => retryRun op n (calls + 1) (some e)

/-- Entry point `_retry(coro_factory, attempts=...)`: run the loop with `last_exc = None`.
`attempts` is a Python `int`, so it is modelled as `Int`; `range(attempts)`
is empty when `attempts <= 0`, which `Int.toNat` captures. -/
def retry {E A : Type} (op : Nat → Except E A) (attempts : Int) :
    Except (Option E) A × Nat :=
  retryRun op attempts.toNat 0 none

/-- The sleep computed before retry `i` in `_retry`:
`min(max_delay, base_delay * (2 ** i)) * (0.5 + random.random())`,
with `u` standing for the value drawn from `random.random()`
(a float in `[0, 1)`), modelled over the rationals. -/
def backoffDelay (baseDelay maxDelay : ℚ) (i : Nat) (u : ℚ) : ℚ :=
  min maxDelay (baseDelay * 2 ^ i) * (1 / 2 + u)

/-! ## Email provider: recipient normalization and chunked bulk send
(`infrastructure/providers/default/email.py`, `send_email_to_many`). -/

/-- The recipient-cleaning comprehension
`[str(r).strip() for r in recipients if str(r).strip()]`, shared between
`send_email_to_many` and `NotificationService.queue_notification`:
strip each entry, keep the non-empty results. -/
def normalizeRecipients (recipients : List String) : List String :=
  (recipients.map String.trim).filter (fun s => s ≠ "")

/-- The batch slicing
`[recips[i : i + batch_size] for i in range(0, len(recips), batch_size)]`:
chunk `k` is the slice starting at offset `k * b`, of length at most `b`;
`range(0, n, b)` has `(n + b - 1) / b` elements for `b >= 1`. -/
def chunkBatches {α : Type} (l : List α) (b : Nat) : List (List α) :=
  (List.range ((l.length + b - 1) / b)).map (fun k => (l.drop (k * b)).take b)

/-- Bulk sender `send_email_to_many`, reduced to the transport calls it issues: the list
of per-chunk recipient lists handed to `_send_one` (one entry per
`_send_batch` task).  Returns `[]` (no transport call) when the normalized
recipient list is empty. -/
def send_email_to_many (recipients : List String) (batch_size : Nat) :
    List (List String) :=
  let recips := normalizeRecipients recipients
  if recips.isEmpty then []
  else chunkBatches recips batch_size

/-- The outcome of the `asyncio.gather` over all `_send_batch` tasks: every
chunk send is issued (gather starts all tasks; a failing task does not
cancel its siblings), each paired with whether its own send succeeded. -/
def sendManyOutcomes (recipients : List String) (batch_size : Nat)
    (ok : List String → Bool) : List (List String × Bool) :=
  (send_email_to_many recipients batch_size).map (fun c => (c, ok c))

/-! ## Worker: batch claim
(`application/workers/notification_sender.py`, `main_loop`). -/

/-- The `WHERE` clause of the claim query:
`status == PENDING AND scheduled_at <= now`.  In SQL a `NULL`
`scheduled_at` makes the comparison unknown, so the row is not selected;
hence the `none` case is `false`. -/
def isDue (j : Notification) (now : Int) : Bool :=
  match j.scheduledAt with
  | some t => decide (t ≤ now)
  | none => false

/-- The `ORDER BY priority DESC, created_at ASC` comparator: `a` comes no
later than `b` when `a` has strictly higher priority, or equal priority and
a creation time no later than that of `b`. -/
def jobBefore (a b : Notification) : Bool :=
  decide (b.priority < a.priority) ||
    (decide (a.priority = b.priority) && decide (a.createdAt ≤ b.createdAt))

/-- Insert a job into a list ordered by `jobBefore` (helper realizing the
orderings of the claim query as an insertion sort). -/
def insertByOrder (a : Notification) : List Notification → List Notification
  | [] => [a]
  | b :: rest => if jobBefore a b then a :: b :: rest else b :: insertByOrder a rest

/-- Sort a list of jobs by `jobBefore` (insertion sort). -/
def orderJobs : List Notification → List Notification
  | [] => []
  | a :: rest => insertByOrder a (orderJobs rest)

/-- The subquery of the claim query in `main_loop`: the rows with status
PENDING and scheduled time at most `now`, ordered by priority descending
then creation time ascending, at most `limit` of them
(`.order_by(priority.desc(), created_at.asc()).limit(BATCH_SIZE)`). -/
def rankedDue (jobs : List Notification) (now : Int) (limit : Nat) :
    List Notification :=
  (orderJobs (jobs.filter
    (fun j => decide (j.status = NotificationStatus.pending) && isDue j now))).take limit

/-- The id sequence the subquery yields (`sa.select(Notification.id)...`). -/
def claimDueIds (jobs : List Notification) (now : Int) (limit : Nat) :
    List String :=
  (rankedDue jobs now limit).map Notification.id

/-- The outer fetch of `main_loop`,
`select(Notification).where(Notification.id.in_(sa.select(subquery)))`: it
selects the full rows whose id the subquery claimed, but it carries no
ORDER BY of its own, so the database returns those rows in unspecified
order.  The model returns them in the order of the store list, which is one
of the orders the database may choose. -/
def claimDue (jobs : List Notification) (now : Int) (limit : Nat) :
    List Notification :=
  jobs.filter (fun j => decide (j.id ∈ claimDueIds jobs now limit))

/-! ## Worker: batch processing
(`application/workers/notification_sender.py`, `process_batch`). -/

/-- The per-result status update of `process_batch`: always stamp
`last_attempt_at` and increment `attempt_count`; on success set status SENT,
`sent_at = now` and clear `last_error`; on failure set status FAILED and
record the error message. -/
def applyOutcome (now : Int) (n : Notification) (ok : Bool)
    (errMsg : Option String) : Notification :=
  let base := { n with lastAttemptAt := some now,
                       attemptCount := n.attemptCount + 1 }
  if ok then
    { base with status := NotificationStatus.sent, sentAt := some now,
                lastError := none }
  else
    { base with status := NotificationStatus.failed, lastError := errMsg }

/-- Worker function `process_batch`: each job of the batch is sent (outcome given by the
transport, modelled by `outcome`) and then updated by `applyOutcome`. -/
def process_batch (now : Int) (outcome : Notification → Bool × Option String)
    (batch : List Notification) : List Notification :=
  batch.map (fun n => applyOutcome now n (outcome n).1 (outcome n).2)

/-! ## Service: result aggregation
(`application/v1/notifications/service.py`, `process_notifications_async`). -/

/-- Partition `success_ids = [nid for nid, ok in results if ok]`. -/
def successIds (results : List (String × Bool)) : List String :=
  (results.filter (fun r => r.2)).map Prod.fst

/-- Partition `failure_ids = [nid for nid, ok in results if not ok]`. -/
def failureIds (results : List (String × Bool)) : List String :=
  (results.filter (fun r => !r.2)).map Prod.fst

/-- The success bulk write: status SENT, `sent_at = now`,
`last_attempt_at = now`, `attempt_count` incremented, `last_error` cleared. -/
def markSent (now : Int) (n : Notification) : Notification :=
  { n with status := NotificationStatus.sent, sentAt := some now,
           lastAttemptAt := some now, attemptCount := n.attemptCount + 1,
           lastError := none }

/-- The failure bulk write: status FAILED, `last_attempt_at = now`,
`attempt_count` incremented, `last_error` set to the summary text. -/
def markFailed (now : Int) (n : Notification) : Notification :=
  { n with status := NotificationStatus.failed, lastAttemptAt := some now,
           attemptCount := n.attemptCount + 1,
           lastError := some "One or more recipient sends failed" }

/-- One `UPDATE ... WHERE id IN ids` bulk write against the job store
(the store modelled as the list of its rows). -/
def bulkUpdate (ids : List String) (f : Notification → Notification)
    (store : List Notification) : List Notification :=
  store.map (fun n => if n.id ∈ ids then f n else n)

/-- The aggregation tail of `process_notifications_async`: partition the
results into success and failure identifier lists, and issue one bulk write
per non-empty list (`if success_ids: ...`, `if failure_ids: ...`).  Returns
the updated store together with the number of bulk writes issued. -/
def aggregateResults (now : Int) (results : List (String × Bool))
    (store : List Notification) : List Notification × Nat :=
  let s := successIds results
  let f := failureIds results
  let store1 := if s.isEmpty then store else bulkUpdate s (markSent now) store
  let store2 := if f.isEmpty then store1 else bulkUpdate f (markFailed now) store1
  (store2, (if s.isEmpty then 0 else 1) + (if f.isEmpty then 0 else 1))

/-! ## Service: intake validation
(`application/v1/notifications/service.py`,
`NotificationService.queue_notification`, with
`application/v1/notifications/schema.py`). -/

/-- The request body `CreateNotificationSchema`.  `payload`
(`Dict[str, Any]`) is modelled abstractly as key/value string pairs; the
pydantic field bounds (subject length, `priority` in 0..10, `min_items=1`)
live in the schema layer and are not needed by the service-level check
verified here. -/
structure CreateNotificationSchema where
  subject : String
  recipients : List String
  message : String
  priority : Int
  scheduledAt : Option Int
  payload : List (String × String)
  deriving DecidableEq

/-- Intake `NotificationService.queue_notification`: normalize the recipients,
reject with `AppBadRequestException` when none remain (before any insert),
otherwise insert one PENDING row with `attempt_count = 0` and return it.
`newId` and `createdAt` stand for the DB-generated id and timestamp. -/
def queue_notification (newId : String) (createdAt : Int)
    (data : CreateNotificationSchema) (store : List Notification) :
    Except String (List Notification × Notification) :=
  let recipients := normalizeRecipients data.recipients
  if recipients.isEmpty then
    Except.error "At least one recipient is required."
  else
    let n : Notification :=
      { id := newId, subject := data.subject, message := data.message,
        recipients := recipients, status := NotificationStatus.pending,
        priority := data.priority, scheduledAt := data.scheduledAt,
        sentAt := none, attemptCount := 0, lastAttemptAt := none,
        lastError := none, createdAt := createdAt }
    Except.ok (store ++ [n], n)

/-! ## Theorems: retrier (claims about `_retry`) -/

theorem retryRun_calls_le {E A : Type} (op : Nat → Except E A) :
    ∀ (n calls : Nat) (l : Option E), (retryRun op n calls l).2 ≤ calls + n := by
  intro n
  induction n with
  | zero => intro calls l; simp [retryRun]
  | succ n ih =>
    intro calls l
    rw [retryRun]
    cases h : op calls with
    | ok a => simp
    | error e =>
      show (retryRun op n (calls + 1) (some e)).2 ≤ calls + (n + 1)
      have := ih (calls + 1) (some e)
      omega

theorem retryRun_all_fail {E A : Type} (op : Nat → Except E A) (f : Nat → E)
    (hf : ∀ k, op k = Except.error (f k)) :
    ∀ (n calls : Nat) (l : Option E), 1 ≤ n →
      retryRun op n calls l = (Except.error (some (f (calls + n - 1))), calls + n) := by
  intro n
  induction n with
  | zero => intro calls l h; omega
  | succ n ih =>
    intro calls l _
    rw [retryRun, hf calls]
    cases Nat.eq_zero_or_pos n with
    | inl h0 =>
      subst h0
      simp [retryRun]
    | inr hpos =>
      show retryRun op n (calls + 1) (some (f calls)) =
        (Except.error (some (f (calls + (n + 1) - 1))), calls + (n + 1))
      rw [ih (calls + 1) (some (f calls)) hpos]
      have h1 : calls + 1 + n - 1 = calls + (n + 1) - 1 := by omega
      have h2 : calls + 1 + n = calls + (n + 1) := by omega
      rw [h1, h2]

theorem retryRun_succeeds {E A : Type} (op : Nat → Except E A) :
    ∀ (k n calls : Nat) (l : Option E) (a : A),
      op (calls + k) = Except.ok a →
      (∀ j, j < k → ∃ e, op (calls + j) = Except.error e) →
      k < n →
      retryRun op n calls l = (Except.ok a, calls + k + 1) := by
  intro k
  induction k with
  | zero =>
    intro n calls l a hok _ hlt
    obtain ⟨m, rfl⟩ : ∃ m, n = m + 1 := ⟨n - 1, by omega⟩
    rw [Nat.add_zero] at hok
    rw [retryRun, hok]
  | succ k ih =>
    intro n calls l a hok hfail hlt
    obtain ⟨m, rfl⟩ : ∃ m, n = m + 1 := ⟨n - 1, by omega⟩
    obtain ⟨e, he⟩ := hfail 0 (by omega)
    rw [Nat.add_zero] at he
    rw [retryRun, he]
    have harg : calls + 1 + k = calls + (k + 1) := by omega
    have := ih m (calls + 1) (some e) a
      (by rw [harg]; exact hok)
      (by intro j hj
          obtain ⟨e2, he2⟩ := hfail (j + 1) (by omega)
          exact ⟨e2, by rw [show calls + 1 + j = calls + (j + 1) by omega]; exact he2⟩)
      (by omega)
    show retryRun op m (calls + 1) (some e) = (Except.ok a, calls + (k + 1) + 1)
    rw [this, harg]

/-- Claim C2: for attempts `n ≥ 1` the retrier calls the operation at most
`n` times; if every call fails it is called exactly `n` times and the last
error (that of call `n - 1`, 0-indexed) is raised; if call `k` (0-indexed)
succeeds after `k` failures and `k < n`, the success is returned after
exactly `k + 1` calls, with no further call. -/
theorem retry_attempt_semantics {E A : Type} (op : Nat → Except E A)
    (n : Nat) (h1 : 1 ≤ n) :
    (retry op (n : Int)).2 ≤ n ∧
    (∀ f : Nat → E, (∀ k, op k = Except.error (f k)) →
       retry op (n : Int) = (Except.error (some (f (n - 1))), n)) ∧
    (∀ (k : Nat) (a : A), k < n → op k = Except.ok a →
       (∀ j, j < k → ∃ e, op j = Except.error e) →
       retry op (n : Int) = (Except.ok a, k + 1)) := by
  have hn : ((n : Int)).toNat = n := Int.toNat_natCast n
  refine ⟨?_, ?_, ?_⟩
  · rw [retry, hn]
    simpa using retryRun_calls_le op n 0 none
  · intro f hf
    rw [retry, hn]
    simpa using retryRun_all_fail op f hf n 0 none h1
  · intro k a hk hok hfail
    rw [retry, hn]
    have := retryRun_succeeds op k n 0 none a (by simpa using hok)
      (by intro j hj; simpa using hfail j hj) hk
    simpa using this

/-- A concrete operation for exercising the retrier: call 0 fails with
error 0, call 1 succeeds with value 7. -/
def wOpC2 (k : Nat) : Except Nat Nat :=
  if k = 1 then Except.ok 7 else Except.error k

theorem retry_attempt_semantics_witness :
    1 ≤ 3 ∧
    ((retry wOpC2 ((3 : Nat) : Int)).2 ≤ 3 ∧
     (∀ f : Nat → Nat, (∀ k, wOpC2 k = Except.error (f k)) →
        retry wOpC2 ((3 : Nat) : Int) = (Except.error (some (f (3 - 1))), 3)) ∧
     (∀ (k : Nat) (a : Nat), k < 3 → wOpC2 k = Except.ok a →
        (∀ j, j < k → ∃ e, wOpC2 j = Except.error e) →
        retry wOpC2 ((3 : Nat) : Int) = (Except.ok a, k + 1))) :=
  ⟨by decide, retry_attempt_semantics wOpC2 3 (by decide)⟩

/-- Claim C10: with `attempts ≤ 0` the loop body never runs, so the
operation is never invoked (0 calls) and `raise last_exc` raises the still-
`None` value (modelled `Except.error none`, distinct from every operation
error `Except.error (some e)`): the Python code raises a `TypeError`, not
an error of the operation. -/
theorem retry_nonpositive_attempts {E A : Type} (op : Nat → Except E A)
    (attempts : Int) (h : attempts ≤ 0) :
    retry op attempts = (Except.error none, 0) ∧
    (∀ e : E, (Except.error (some e) : Except (Option E) A) ≠ Except.error none) := by
  constructor
  · rw [retry, Int.toNat_of_nonpos h]
    rfl
  · intro e hcontra
    simp at hcontra

theorem retry_nonpositive_attempts_witness :
    (-1 : Int) ≤ 0 ∧
    (retry (fun _ => (Except.error 0 : Except Nat Nat)) (-1) = (Except.error none, 0) ∧
     (∀ e : Nat,
        (Except.error (some e) : Except (Option Nat) Nat) ≠ Except.error none)) :=
  ⟨by decide, retry_nonpositive_attempts (fun _ => Except.error 0) (-1) (by decide)⟩

/-! ## Theorems: backoff delay (claim about the jitter formula) -/

/-- Claim C5 as stated is false: the jitter factor is
`0.5 + random.random()`, which ranges over `[0.5, 1.5)`, not `[0.5, 1.0)`.
With `baseDelay = 1/2`, `maxDelay = 4`, retry index `i = 3` and random
draw `u = 9/10` (a legal value of `random.random()`), the factor is
`7/5 ≥ 1` and the delay is `28/5`, which exceeds `maxDelay = 4`. -/
theorem backoffDelay_exceeds_max_counterexample :
    0 ≤ (9 / 10 : ℚ) ∧ (9 / 10 : ℚ) < 1 ∧
    ¬ (1 / 2 + (9 / 10 : ℚ) < 1) ∧
    backoffDelay (1 / 2) 4 3 (9 / 10) = 28 / 5 ∧
    ¬ (backoffDelay (1 / 2) 4 3 (9 / 10) ≤ 4) := by
  norm_num [backoffDelay]

/-- Claim C5 amended: the delay before retry `i` is
`min(maxDelay, baseDelay * 2^i)` scaled by a uniform random factor in
`[0.5, 1.5)` (not `[0.5, 1.0)`); consequently the delay may exceed
`maxDelay` but is always nonnegative and strictly below `1.5 * maxDelay`. -/
theorem backoffDelay_bounds (baseDelay maxDelay u : ℚ) (i : Nat)
    (hb : 0 ≤ baseDelay) (hm : 0 < maxDelay) (hu0 : 0 ≤ u) (hu1 : u < 1) :
    (1 / 2 ≤ 1 / 2 + u ∧ 1 / 2 + u < 3 / 2) ∧
    0 ≤ backoffDelay baseDelay maxDelay i u ∧
    backoffDelay baseDelay maxDelay i u < 3 / 2 * maxDelay := by
  have hpow : (0 : ℚ) ≤ baseDelay * 2 ^ i := by positivity
  have hmin0 : 0 ≤ min maxDelay (baseDelay * 2 ^ i) :=
    le_min (le_of_lt hm) hpow
  have hminle : min maxDelay (baseDelay * 2 ^ i) ≤ maxDelay := min_le_left _ _
  have hfac0 : (0 : ℚ) ≤ 1 / 2 + u := by linarith
  refine ⟨⟨by linarith, by linarith⟩, ?_, ?_⟩
  · exact mul_nonneg hmin0 hfac0
  · calc min maxDelay (baseDelay * 2 ^ i) * (1 / 2 + u)
        ≤ maxDelay * (1 / 2 + u) := by
          exact mul_le_mul_of_nonneg_right hminle hfac0
      _ < maxDelay * (3 / 2) := by
          exact mul_lt_mul_of_pos_left (by linarith) hm
      _ = 3 / 2 * maxDelay := by ring

theorem backoffDelay_bounds_witness :
    ((0 : ℚ) ≤ 1 / 2 ∧ (0 : ℚ) < 4 ∧ (0 : ℚ) ≤ 9 / 10 ∧ (9 / 10 : ℚ) < 1) ∧
    ((1 / 2 ≤ 1 / 2 + (9 / 10 : ℚ) ∧ 1 / 2 + (9 / 10 : ℚ) < 3 / 2) ∧
     0 ≤ backoffDelay (1 / 2) 4 3 (9 / 10) ∧
     backoffDelay (1 / 2) 4 3 (9 / 10) < 3 / 2 * 4) :=
  ⟨by norm_num,
   backoffDelay_bounds (1 / 2) 4 (9 / 10) 3 (by norm_num) (by norm_num)
     (by norm_num) (by norm_num)⟩

/-! ## Theorems: worker batch processing (claim about `process_batch`) -/

/-- Claim C3: one processing pass over a claimed batch increases the attempt
count of every job by exactly 1 and assigns it exactly one of the statuses
SENT or FAILED, whatever the per-job send outcome. -/
theorem process_batch_attempts_and_status (now : Int)
    (outcome : Notification → Bool × Option String)
    (batch : List Notification) :
    List.Forall₂
      (fun n n2 => n2.attemptCount = n.attemptCount + 1 ∧
        ((n2.status = NotificationStatus.sent ∧
          n2.status ≠ NotificationStatus.failed) ∨
         (n2.status = NotificationStatus.failed ∧
          n2.status ≠ NotificationStatus.sent)))
      batch (process_batch now outcome batch) := by
  induction batch with
  | nil => simp [process_batch]
  | cons n rest ih =>
    rw [process_batch, List.map_cons]
    refine List.Forall₂.cons ?_ ih
    cases h : (outcome n).1 <;> simp [applyOutcome, h]

/-! ## Theorems: worker batch claim (claim about the selection query) -/

theorem jobBefore_iff (a b : Notification) :
    jobBefore a b = true ↔
      (b.priority < a.priority ∨
       (a.priority = b.priority ∧ a.createdAt ≤ b.createdAt)) := by
  simp [jobBefore]

theorem jobBefore_total (a b : Notification) :
    jobBefore a b = true ∨ jobBefore b a = true := by
  rw [jobBefore_iff, jobBefore_iff]
  omega

theorem jobBefore_trans (a b c : Notification) (h1 : jobBefore a b = true)
    (h2 : jobBefore b c = true) : jobBefore a c = true := by
  rw [jobBefore_iff] at h1 h2 ⊢
  omega

theorem mem_insertByOrder (a x : Notification) :
    ∀ l, x ∈ insertByOrder a l ↔ x = a ∨ x ∈ l := by
  intro l
  induction l with
  | nil => simp [insertByOrder]
  | cons b rest ih =>
    rw [insertByOrder]
    cases hab : jobBefore a b with
    | true =>
      simp [hab]
    | false =>
      simp only [hab, Bool.false_eq_true, if_false, List.mem_cons, ih]
      tauto

theorem mem_orderJobs (x : Notification) :
    ∀ l, x ∈ orderJobs l ↔ x ∈ l := by
  intro l
  induction l with
  | nil => simp [orderJobs]
  | cons a rest ih =>
    rw [orderJobs, mem_insertByOrder]
    simp [ih]

theorem pairwise_insertByOrder (a : Notification) :
    ∀ l, List.Pairwise (fun x y => jobBefore x y = true) l →
      List.Pairwise (fun x y => jobBefore x y = true) (insertByOrder a l) := by
  intro l
  induction l with
  | nil => intro _; simp [insertByOrder]
  | cons b rest ih =>
    intro hp
    rcases List.pairwise_cons.mp hp with ⟨hb, hrest⟩
    rw [insertByOrder]
    cases hab : jobBefore a b with
    | true =>
      simp only [if_true]
      refine List.Pairwise.cons ?_ hp
      intro y hy
      rcases List.mem_cons.mp hy with hyb | hy2
      · rw [hyb]; exact hab
      · exact jobBefore_trans a b y hab (hb y hy2)
    | false =>
      simp only [Bool.false_eq_true, if_false]
      refine List.Pairwise.cons ?_ (ih hrest)
      intro y hy
      rcases (mem_insertByOrder a y rest).mp hy with hya | hy2
      · rw [hya]
        rcases jobBefore_total a b with h | h
        · rw [hab] at h; cases h
        · exact h
      · exact hb y hy2

theorem pairwise_orderJobs :
    ∀ l, List.Pairwise (fun x y => jobBefore x y = true) (orderJobs l) := by
  intro l
  induction l with
  | nil => simp [orderJobs]
  | cons a rest ih => exact pairwise_insertByOrder a (orderJobs rest) ih

/-- A PENDING job due at time 0, used for the concrete scenario of the
selection-policy claim. -/
def mkExampleJob (id : String) (priority createdAt : Int) : Notification :=
  { id := id, subject := "s", message := "m", recipients := ["r"],
    status := NotificationStatus.pending, priority := priority,
    scheduledAt := some 0, sentAt := none, attemptCount := 0,
    lastAttemptAt := none, lastError := none, createdAt := createdAt }

theorem mem_rankedDue (jobs : List Notification) (now : Int) (limit : Nat)
    (j : Notification) (hj : j ∈ rankedDue jobs now limit) :
    j ∈ jobs ∧ j.status = NotificationStatus.pending ∧ isDue j now = true := by
  have h1 : j ∈ orderJobs (jobs.filter
      (fun j => decide (j.status = NotificationStatus.pending) && isDue j now)) :=
    List.take_subset _ _ hj
  have h2 := (mem_orderJobs j _).mp h1
  have h3 := List.mem_filter.mp h2
  have h4 := h3.2
  simp only [Bool.and_eq_true, decide_eq_true_eq] at h4
  exact ⟨h3.1, h4.1, h4.2⟩

/-- Claim C1 as stated is false in its ordering conclusions: the subquery
fixes which ids are claimed, but the outer fetch carries no ORDER BY, so
the batch comes back in database order, not in priority/creation order.
Concretely, when the database enumerates the rows of the due set
(priorities 5, 1, 5 with creation times 3, 1, 2 in enumeration order
j3, j1, j2), the fetched batch is [j3, j1]: the two priority-5 jobs in
reverse creation order, violating the ordering the claim asserts for the
returned batch. -/
theorem claimDue_order_counterexample :
    claimDue [mkExampleJob "j3" 5 3, mkExampleJob "j1" 5 1,
        mkExampleJob "j2" 1 2] 0 2
      = [mkExampleJob "j3" 5 3, mkExampleJob "j1" 5 1] ∧
    claimDue [mkExampleJob "j3" 5 3, mkExampleJob "j1" 5 1,
        mkExampleJob "j2" 1 2] 0 2
      ≠ [mkExampleJob "j1" 5 1, mkExampleJob "j3" 5 3] ∧
    ¬ List.Pairwise (fun x y => jobBefore x y = true)
        (claimDue [mkExampleJob "j3" 5 3, mkExampleJob "j1" 5 1,
          mkExampleJob "j2" 1 2] 0 2) := by
  decide

/-- Claim C1 amended: the subquery claims only PENDING jobs with scheduled
time at most `now`, ranked by priority descending then creation time
ascending, at most `limit` of them; the outer fetch returns exactly the
rows carrying the claimed ids, but with no ORDER BY of its own, so the
batch order is chosen by the database and not guaranteed.  On the due set with
priorities [5, 1, 5] and creation order t1 < t2 < t3, claiming with limit 2
claims exactly the ids of the two priority-5 jobs — in creation order
within the subquery — and never the priority-1 job. -/
theorem claimDue_selection (jobs : List Notification) (now : Int)
    (limit : Nat) (hids : (jobs.map Notification.id).Nodup) :
    (∀ j ∈ claimDue jobs now limit,
       j.status = NotificationStatus.pending ∧ isDue j now = true) ∧
    (claimDue jobs now limit).length ≤ limit ∧
    List.Pairwise (fun x y => jobBefore x y = true) (rankedDue jobs now limit) ∧
    (∀ j ∈ claimDue jobs now limit, j.id ∈ claimDueIds jobs now limit) ∧
    claimDueIds [mkExampleJob "j1" 5 1, mkExampleJob "j2" 1 2,
        mkExampleJob "j3" 5 3] 0 2 = ["j1", "j3"] ∧
    (claimDue [mkExampleJob "j1" 5 1, mkExampleJob "j2" 1 2,
        mkExampleJob "j3" 5 3] 0 2).map Notification.id = ["j1", "j3"] := by
  have hidmem : ∀ j ∈ claimDue jobs now limit,
      j ∈ jobs ∧ j.id ∈ claimDueIds jobs now limit := by
    intro j hj
    have h := List.mem_filter.mp hj
    refine ⟨h.1, ?_⟩
    have h2 := h.2
    rw [decide_eq_true_eq] at h2
    exact h2
  refine ⟨?_, ?_, ?_, fun j hj => (hidmem j hj).2, by decide, by decide⟩
  · intro j hj
    obtain ⟨hjmem, hjid⟩ := hidmem j hj
    obtain ⟨j2, hj2, hj2id⟩ := List.mem_map.mp hjid
    obtain ⟨hj2mem, hj2p, hj2d⟩ := mem_rankedDue jobs now limit j2 hj2
    have heq : j2 = j := List.inj_on_of_nodup_map hids hj2mem hjmem hj2id
    rw [← heq]
    exact ⟨hj2p, hj2d⟩
  · have h1 : ((claimDue jobs now limit).map Notification.id).Nodup := by
      have hsub : List.Sublist (claimDue jobs now limit) jobs :=
        List.filter_sublist jobs
      exact hids.sublist (hsub.map Notification.id)
    have h2 : (claimDue jobs now limit).map Notification.id
        ⊆ claimDueIds jobs now limit := by
      intro x hx
      obtain ⟨j, hj, hjx⟩ := List.mem_map.mp hx
      rw [← hjx]
      exact (hidmem j hj).2
    have h3 := (h1.subperm h2).length_le
    rw [List.length_map] at h3
    have h4 : (claimDueIds jobs now limit).length ≤ limit := by
      rw [claimDueIds, List.length_map, rankedDue, List.length_take]
      exact min_le_left _ _
    omega
  · rw [rankedDue]
    exact List.Pairwise.sublist (List.take_sublist _ _) (pairwise_orderJobs _)

theorem claimDue_selection_witness :
    ([mkExampleJob "j1" 5 1, mkExampleJob "j2" 1 2,
        mkExampleJob "j3" 5 3].map Notification.id).Nodup ∧
    ((∀ j ∈ claimDue [mkExampleJob "j1" 5 1, mkExampleJob "j2" 1 2,
          mkExampleJob "j3" 5 3] 0 2,
        j.status = NotificationStatus.pending ∧ isDue j 0 = true) ∧
     (claimDue [mkExampleJob "j1" 5 1, mkExampleJob "j2" 1 2,
        mkExampleJob "j3" 5 3] 0 2).length ≤ 2 ∧
     List.Pairwise (fun x y => jobBefore x y = true)
       (rankedDue [mkExampleJob "j1" 5 1, mkExampleJob "j2" 1 2,
          mkExampleJob "j3" 5 3] 0 2) ∧
     (∀ j ∈ claimDue [mkExampleJob "j1" 5 1, mkExampleJob "j2" 1 2,
          mkExampleJob "j3" 5 3] 0 2,
        j.id ∈ claimDueIds [mkExampleJob "j1" 5 1, mkExampleJob "j2" 1 2,
          mkExampleJob "j3" 5 3] 0 2) ∧
     claimDueIds [mkExampleJob "j1" 5 1, mkExampleJob "j2" 1 2,
        mkExampleJob "j3" 5 3] 0 2 = ["j1", "j3"] ∧
     (claimDue [mkExampleJob "j1" 5 1, mkExampleJob "j2" 1 2,
        mkExampleJob "j3" 5 3] 0 2).map Notification.id = ["j1", "j3"]) :=
  ⟨by decide, claimDue_selection [mkExampleJob "j1" 5 1, mkExampleJob "j2" 1 2,
    mkExampleJob "j3" 5 3] 0 2 (by decide)⟩

/-! ## Theorems: service result aggregation -/

/-- Pointwise effect of one aggregation pass on one stored row: the success
write applies to rows whose id is in the success list, then the failure
write applies to rows whose id is in the failure list. -/
def updateRow (now : Int) (results : List (String × Bool))
    (n : Notification) : Notification :=
  let m := if n.id ∈ successIds results then markSent now n else n
  if m.id ∈ failureIds results then markFailed now m else m

theorem markSent_id (now : Int) (n : Notification) :
    (markSent now n).id = n.id := rfl

theorem markFailed_id (now : Int) (n : Notification) :
    (markFailed now n).id = n.id := rfl

theorem updateRow_id (now : Int) (results : List (String × Bool))
    (n : Notification) : (updateRow now results n).id = n.id := by
  rw [updateRow]
  by_cases hs : n.id ∈ successIds results <;>
    by_cases hf : n.id ∈ failureIds results <;>
    simp [hs, hf, markSent_id, markFailed_id]

theorem aggregateResults_fst (now : Int) (results : List (String × Bool))
    (store : List Notification) :
    (aggregateResults now results store).1 = store.map (updateRow now results) := by
  cases hs : (successIds results).isEmpty with
  | true =>
    have hsl : successIds results = [] := List.isEmpty_iff.mp hs
    cases hf : (failureIds results).isEmpty with
    | true =>
      have hfl : failureIds results = [] := List.isEmpty_iff.mp hf
      simp only [aggregateResults, hs, hf, if_true]
      refine Eq.symm (List.map_id'' (fun n => ?_) store)
      simp [updateRow, hsl, hfl]
    | false =>
      simp only [aggregateResults, hs, hf, Bool.false_eq_true, if_true, if_false,
        bulkUpdate]
      congr 1
      funext n
      simp [updateRow, hsl]
  | false =>
    cases hf : (failureIds results).isEmpty with
    | true =>
      have hfl : failureIds results = [] := List.isEmpty_iff.mp hf
      simp only [aggregateResults, hs, hf, Bool.false_eq_true, if_true, if_false,
        bulkUpdate]
      congr 1
      funext n
      simp [updateRow, hfl]
    | false =>
      simp only [aggregateResults, hs, hf, Bool.false_eq_true, if_false,
        bulkUpdate, List.map_map]
      congr 1

theorem mem_successIds (results : List (String × Bool)) (i : String) :
    i ∈ successIds results ↔ (i, true) ∈ results := by
  simp only [successIds, List.mem_map, List.mem_filter, Prod.exists]
  constructor
  · rintro ⟨x, y, ⟨hmem, hok⟩, hx⟩
    cases y with
    | false => simp at hok
    | true => rw [← hx]; exact hmem
  · intro h
    exact ⟨i, true, ⟨h, rfl⟩, rfl⟩

theorem mem_failureIds (results : List (String × Bool)) (i : String) :
    i ∈ failureIds results ↔ (i, false) ∈ results := by
  simp only [failureIds, List.mem_map, List.mem_filter, Prod.exists]
  constructor
  · rintro ⟨x, y, ⟨hmem, hok⟩, hx⟩
    cases y with
    | true => simp at hok
    | false => rw [← hx]; exact hmem
  · intro h
    exact ⟨i, false, ⟨h, rfl⟩, rfl⟩

theorem updateRow_of_failure (now : Int) (results : List (String × Bool))
    (n : Notification) (hf : n.id ∈ failureIds results)
    (hs : n.id ∉ successIds results) :
    updateRow now results n = markFailed now n := by
  rw [updateRow]
  simp [hs, hf]

theorem updateRow_of_success (now : Int) (results : List (String × Bool))
    (n : Notification) (hs : n.id ∈ successIds results)
    (hf : n.id ∉ failureIds results) :
    updateRow now results n = markSent now n := by
  rw [updateRow]
  simp [hs, markSent_id, hf]

theorem updateRow_of_neither (now : Int) (results : List (String × Bool))
    (n : Notification) (hs : n.id ∉ successIds results)
    (hf : n.id ∉ failureIds results) :
    updateRow now results n = n := by
  rw [updateRow]
  simp [hs, hf]

theorem forall₂_map_self {α β : Type} (f : α → β) (P : α → β → Prop) :
    ∀ l : List α, (∀ x ∈ l, P x (f x)) → List.Forall₂ P l (l.map f) := by
  intro l
  induction l with
  | nil => intro _; simp
  | cons a rest ih =>
    intro h
    rw [List.map_cons]
    exact List.Forall₂.cons (h a (by simp)) (ih (fun x hx => h x (by simp [hx])))

/-- Claim C4 as stated is false in its quoted summary text: the failure bulk
write stores `last_error = "One or more recipient sends failed"` (capital O),
not `"one or more recipient sends failed"`.  Concretely, aggregating the
single failed result `("a", false)` over a one-row store leaves a last-error
different from the text the claim quotes. -/
theorem aggregate_summary_text_counterexample :
    (aggregateResults 0 [("a", false)] [mkExampleJob "a" 0 0]).1.map
        Notification.lastError = [some "One or more recipient sends failed"] ∧
    (aggregateResults 0 [("a", false)] [mkExampleJob "a" 0 0]).1.map
        Notification.lastError ≠ [some "one or more recipient sends failed"] := by
  decide

/-- Claim C4 amended (summary text capitalized as in the code): the
aggregator partitions the results into the success and failure identifier
lists, issues exactly one bulk write per non-empty list, and per row: a
success-only id gets status SENT, sent time `now`, attempt count + 1 and
last-error cleared; a failure id (not also a success) gets status FAILED,
attempt count + 1 and last-error `"One or more recipient sends failed"`;
untouched rows are unchanged. -/
theorem aggregateResults_spec (now : Int) (results : List (String × Bool))
    (store : List Notification) :
    (aggregateResults now results store).2
       = (if (successIds results).isEmpty then 0 else 1)
         + (if (failureIds results).isEmpty then 0 else 1) ∧
    (∀ i : String, i ∈ successIds results ↔ (i, true) ∈ results) ∧
    (∀ i : String, i ∈ failureIds results ↔ (i, false) ∈ results) ∧
    List.Forall₂ (fun n n2 =>
        (n.id ∈ successIds results → n.id ∉ failureIds results →
           n2.status = NotificationStatus.sent ∧ n2.sentAt = some now ∧
           n2.attemptCount = n.attemptCount + 1 ∧ n2.lastError = none) ∧
        (n.id ∈ failureIds results → n.id ∉ successIds results →
           n2.status = NotificationStatus.failed ∧
           n2.attemptCount = n.attemptCount + 1 ∧
           n2.lastError = some "One or more recipient sends failed") ∧
        (n.id ∉ successIds results → n.id ∉ failureIds results → n2 = n))
      store (aggregateResults now results store).1 := by
  refine ⟨rfl, mem_successIds results, mem_failureIds results, ?_⟩
  rw [aggregateResults_fst]
  refine forall₂_map_self _ _ store (fun n _ => ⟨?_, ?_, ?_⟩)
  · intro hs hf
    rw [updateRow_of_success now results n hs hf]
    exact ⟨rfl, rfl, rfl, rfl⟩
  · intro hf hs
    rw [updateRow_of_failure now results n hf hs]
    exact ⟨rfl, rfl, rfl⟩
  · intro hs hf
    rw [updateRow_of_neither now results n hs hf]

theorem aggregateResults_spec_witness :
    (aggregateResults 7 [("a", true), ("b", false)]
        [mkExampleJob "a" 0 0, mkExampleJob "b" 0 0]).2
       = (if (successIds [("a", true), ("b", false)]).isEmpty then 0 else 1)
         + (if (failureIds [("a", true), ("b", false)]).isEmpty then 0 else 1) ∧
    (∀ i : String,
       i ∈ successIds [("a", true), ("b", false)] ↔
         (i, true) ∈ [("a", true), ("b", false)]) ∧
    (∀ i : String,
       i ∈ failureIds [("a", true), ("b", false)] ↔
         (i, false) ∈ [("a", true), ("b", false)]) ∧
    List.Forall₂ (fun n n2 =>
        (n.id ∈ successIds [("a", true), ("b", false)] →
           n.id ∉ failureIds [("a", true), ("b", false)] →
           n2.status = NotificationStatus.sent ∧ n2.sentAt = some 7 ∧
           n2.attemptCount = n.attemptCount + 1 ∧ n2.lastError = none) ∧
        (n.id ∈ failureIds [("a", true), ("b", false)] →
           n.id ∉ successIds [("a", true), ("b", false)] →
           n2.status = NotificationStatus.failed ∧
           n2.attemptCount = n.attemptCount + 1 ∧
           n2.lastError = some "One or more recipient sends failed") ∧
        (n.id ∉ successIds [("a", true), ("b", false)] →
           n.id ∉ failureIds [("a", true), ("b", false)] → n2 = n))
      [mkExampleJob "a" 0 0, mkExampleJob "b" 0 0]
      (aggregateResults 7 [("a", true), ("b", false)]
        [mkExampleJob "a" 0 0, mkExampleJob "b" 0 0]).1 :=
  aggregateResults_spec 7 [("a", true), ("b", false)]
    [mkExampleJob "a" 0 0, mkExampleJob "b" 0 0]

/-- Statuses after one aggregation pass as a function of identifier
membership alone: a failure id ends FAILED, a remaining success id ends
SENT, any other row keeps its status. -/
def aggregatedStatus (results : List (String × Bool)) (n : Notification) :
    NotificationStatus :=
  if n.id ∈ failureIds results then NotificationStatus.failed
  else if n.id ∈ successIds results then NotificationStatus.sent
  else n.status

theorem updateRow_status (now : Int) (results : List (String × Bool))
    (n : Notification) :
    (updateRow now results n).status = aggregatedStatus results n := by
  by_cases hf : n.id ∈ failureIds results
  · by_cases hs : n.id ∈ successIds results
    · rw [updateRow, aggregatedStatus]
      simp [hs, hf, markSent_id, markSent, markFailed]
    · rw [updateRow_of_failure now results n hf hs, aggregatedStatus]
      simp [hf, markFailed]
  · by_cases hs : n.id ∈ successIds results
    · rw [updateRow_of_success now results n hs hf, aggregatedStatus]
      simp [hs, hf, markSent]
    · rw [updateRow_of_neither now results n hs hf, aggregatedStatus]
      simp [hs, hf]

theorem aggregatedStatus_updateRow (now : Int) (results : List (String × Bool))
    (n : Notification) :
    aggregatedStatus results (updateRow now results n)
      = aggregatedStatus results n := by
  by_cases hf : n.id ∈ failureIds results
  · simp [aggregatedStatus, updateRow_id, hf]
  · by_cases hs : n.id ∈ successIds results
    · simp [aggregatedStatus, updateRow_id, hf, hs]
    · simp [aggregatedStatus, updateRow_id, hf, hs,
        updateRow_of_neither now results n hs hf]

/-- Claim C7: applying the result aggregation twice with the same result set
yields the same status for every stored job after the second application as
after the first; both passes send the store statuses to `aggregatedStatus`
(success-set jobs SENT, failure-set jobs FAILED, others untouched). -/
theorem aggregateResults_idempotent_status (now1 now2 : Int)
    (results : List (String × Bool)) (store : List Notification) :
    ((aggregateResults now1 results store).1.map Notification.status
       = store.map (aggregatedStatus results)) ∧
    ((aggregateResults now2 results
        (aggregateResults now1 results store).1).1.map Notification.status
       = store.map (aggregatedStatus results)) ∧
    ((aggregateResults now2 results
        (aggregateResults now1 results store).1).1.map Notification.status
       = (aggregateResults now1 results store).1.map Notification.status) := by
  have h1 : (aggregateResults now1 results store).1.map Notification.status
      = store.map (aggregatedStatus results) := by
    rw [aggregateResults_fst, List.map_map]
    exact List.map_congr_left (fun n _ => updateRow_status now1 results n)
  have h2 : (aggregateResults now2 results
      (aggregateResults now1 results store).1).1.map Notification.status
      = store.map (aggregatedStatus results) := by
    rw [aggregateResults_fst, aggregateResults_fst, List.map_map, List.map_map]
    refine List.map_congr_left (fun n _ => ?_)
    show (updateRow now2 results (updateRow now1 results n)).status
      = aggregatedStatus results n
    rw [updateRow_status, aggregatedStatus_updateRow]
  exact ⟨h1, h2, h2.trans h1.symm⟩

/-! ## Theorems: intake validation -/

theorem normalizeRecipients_eq_nil (rs : List String) :
    normalizeRecipients rs = [] ↔ ∀ r ∈ rs, r.trim = "" := by
  rw [normalizeRecipients, List.filter_eq_nil_iff]
  constructor
  · intro h r hr
    have := h r.trim (List.mem_map.mpr ⟨r, hr, rfl⟩)
    simpa using this
  · intro h x hx
    obtain ⟨y, hy, hxy⟩ := List.mem_map.mp hx
    rw [← hxy]
    simpa using h y hy

/-- Claim C8: a submission whose recipient list is empty or all-blank is
rejected with the validation error before any job is created (the store is
untouched because the error path returns before the insert); every job the
intake path does create starts PENDING with a non-empty recipient list and
attempt count 0, appended to the store. -/
theorem queue_notification_validation (newId : String) (createdAt : Int)
    (data : CreateNotificationSchema) (store : List Notification) :
    (normalizeRecipients data.recipients = [] ↔
       ∀ r ∈ data.recipients, r.trim = "") ∧
    (normalizeRecipients data.recipients = [] →
       queue_notification newId createdAt data store
         = Except.error "At least one recipient is required.") ∧
    (∀ (store2 : List Notification) (n : Notification),
       queue_notification newId createdAt data store = Except.ok (store2, n) →
       n.recipients ≠ [] ∧ n.status = NotificationStatus.pending ∧
       n.attemptCount = 0 ∧ store2 = store ++ [n]) := by
  refine ⟨normalizeRecipients_eq_nil data.recipients, ?_, ?_⟩
  · intro h
    simp only [queue_notification, h]
    rfl
  · intro store2 n h
    simp only [queue_notification] at h
    by_cases hemp : (normalizeRecipients data.recipients).isEmpty
    · rw [if_pos hemp] at h
      cases h
    · rw [if_neg hemp] at h
      simp only [Except.ok.injEq, Prod.mk.injEq] at h
      obtain ⟨hs2, hn⟩ := h
      subst hn
      refine ⟨?_, rfl, rfl, hs2.symm⟩
      intro hnil
      exact hemp (List.isEmpty_iff.mpr hnil)

/-- A request body with only blank recipients, for exercising the
validation path. -/
def blankRequest : CreateNotificationSchema :=
  { subject := "s", recipients := ["  ", ""], message := "m", priority := 0,
    scheduledAt := none, payload := [] }

theorem queue_notification_validation_witness :
    (normalizeRecipients blankRequest.recipients = [] ↔
       ∀ r ∈ blankRequest.recipients, r.trim = "") ∧
    (normalizeRecipients blankRequest.recipients = [] →
       queue_notification "id1" 0 blankRequest []
         = Except.error "At least one recipient is required.") ∧
    (∀ (store2 : List Notification) (n : Notification),
       queue_notification "id1" 0 blankRequest [] = Except.ok (store2, n) →
       n.recipients ≠ [] ∧ n.status = NotificationStatus.pending ∧
       n.attemptCount = 0 ∧ store2 = [] ++ [n]) :=
  queue_notification_validation "id1" 0 blankRequest []

/-! ## Theorems: chunked bulk send -/

theorem pred_div_self_eq_zero (b : Nat) : (b - 1) / b = 0 := by
  cases b with
  | zero => rfl
  | succ m => exact Nat.div_eq_of_lt (by omega)

theorem chunkBatches_nil {α : Type} (b : Nat) :
    chunkBatches ([] : List α) b = [] := by
  simp [chunkBatches, pred_div_self_eq_zero]

theorem send_email_to_many_eq_chunks (recipients : List String)
    (batch_size : Nat) :
    send_email_to_many recipients batch_size
      = chunkBatches (normalizeRecipients recipients) batch_size := by
  rw [send_email_to_many]
  cases hemp : (normalizeRecipients recipients).isEmpty with
  | true =>
    have hnil : normalizeRecipients recipients = [] := List.isEmpty_iff.mp hemp
    rw [hnil, chunkBatches_nil]
    simp
  | false => rfl

theorem chunkBatches_length {α : Type} (l : List α) (b : Nat) :
    (chunkBatches l b).length = (l.length + b - 1) / b := by
  simp [chunkBatches]

theorem ceil_div_eq (n b : Nat) (hb : 1 ≤ b) :
    (n + b - 1) / b = n / b + (if n % b = 0 then 0 else 1) := by
  have hdm : b * (n / b) + n % b = n := Nat.div_add_mod n b
  have hlt : n % b < b := Nat.mod_lt n (by omega)
  have h1 : n + b - 1 = b * (n / b) + (n % b + b - 1) := by omega
  rw [h1, Nat.mul_add_div (by omega : 0 < b)]
  by_cases hr : n % b = 0
  · rw [hr]
    simp [pred_div_self_eq_zero]
  · have h2 : n % b + b - 1 = b * 1 + (n % b - 1) := by omega
    rw [h2, Nat.mul_add_div (by omega : 0 < b),
      Nat.div_eq_of_lt (by omega : n % b - 1 < b)]
    simp [hr]

theorem chunkBatches_get_length {α : Type} (l : List α) (b : Nat)
    (k : Nat) (hk : k < (chunkBatches l b).length) :
    ((chunkBatches l b).get ⟨k, hk⟩).length = min b (l.length - k * b) := by
  simp [chunkBatches, List.length_take, List.length_drop]

theorem chunkBatches_sizes {α : Type} (l : List α) (b : Nat) (hb : 1 ≤ b)
    (k : Nat) (hk : k < (chunkBatches l b).length) :
    ((chunkBatches l b).get ⟨k, hk⟩).length
      = if k + 1 < (chunkBatches l b).length then b
        else if l.length % b = 0 then b else l.length % b := by
  have hdm : b * (l.length / b) + l.length % b = l.length := Nat.div_add_mod _ b
  have hlt : l.length % b < b := Nat.mod_lt _ (by omega)
  rw [chunkBatches_get_length]
  by_cases hlast : k + 1 < (chunkBatches l b).length
  · rw [if_pos hlast]
    have hcb : (chunkBatches l b).length * b ≤ l.length + b - 1 := by
      rw [chunkBatches_length]
      exact Nat.div_mul_le_self _ _
    have hmul : (k + 2) * b ≤ (chunkBatches l b).length * b :=
      Nat.mul_le_mul_right b (by omega)
    rw [add_mul] at hmul
    have hble : b ≤ l.length - k * b := by omega
    exact min_eq_left hble
  · rw [if_neg hlast]
    rw [chunkBatches_length] at hk hlast
    have hc : (l.length + b - 1) / b
        = l.length / b + (if l.length % b = 0 then 0 else 1) :=
      ceil_div_eq _ _ hb
    by_cases hr : l.length % b = 0
    · rw [if_pos hr]
      rw [if_pos hr, Nat.add_zero] at hc
      have hkeq : k + 1 = l.length / b := by omega
      have hmul : (k + 1) * b = b * (l.length / b) := by
        rw [hkeq, Nat.mul_comm]
      rw [add_mul, one_mul] at hmul
      have hlb : l.length - k * b = b := by omega
      rw [hlb, min_self]
    · rw [if_neg hr]
      rw [if_neg hr] at hc
      have hkeq : k = l.length / b := by omega
      have hmul : k * b = b * (l.length / b) := by
        rw [hkeq, Nat.mul_comm]
      have hlb : l.length - k * b = l.length % b := by omega
      rw [hlb]
      exact min_eq_right (le_of_lt hlt)

theorem chunkBatches_mem_subset {α : Type} (l : List α) (b : Nat)
    (c : List α) (hc : c ∈ chunkBatches l b) : c ⊆ l := by
  obtain ⟨k, _, hck⟩ := List.mem_map.mp hc
  rw [← hck]
  exact fun x hx => List.drop_subset _ _ (List.take_subset _ _ hx)

theorem mem_normalizeRecipients (rs : List String) (x : String) :
    x ∈ normalizeRecipients rs ↔ (x ≠ "" ∧ ∃ y ∈ rs, x = y.trim) := by
  rw [normalizeRecipients]
  constructor
  · intro h
    obtain ⟨hmem, hne⟩ := List.mem_filter.mp h
    obtain ⟨y, hy, hxy⟩ := List.mem_map.mp hmem
    exact ⟨by simpa using hne, y, hy, hxy.symm⟩
  · rintro ⟨hne, y, hy, hxy⟩
    exact List.mem_filter.mpr
      ⟨List.mem_map.mpr ⟨y, hy, hxy.symm⟩, by simpa using hne⟩

theorem takeWhileAux_single_a :
    Substring.takeWhileAux "a" ⟨1⟩ Char.isWhitespace ⟨0⟩ = ⟨0⟩ := by
  rw [Substring.takeWhileAux]
  norm_num
  intro h
  exact absurd h (by decide)

theorem takeRightWhileAux_single_a :
    Substring.takeRightWhileAux "a" ⟨0⟩ Char.isWhitespace ⟨1⟩ = ⟨1⟩ := by
  rw [Substring.takeRightWhileAux]
  norm_num
  intro h
  exact absurd h (by decide)

theorem trim_single_a : "a".trim = "a" := by
  unfold String.trim Substring.trim
  show (Substring.mk "a" (Substring.takeWhileAux "a" ⟨1⟩ Char.isWhitespace ⟨0⟩)
    (Substring.takeRightWhileAux "a"
      (Substring.takeWhileAux "a" ⟨1⟩ Char.isWhitespace ⟨0⟩)
      Char.isWhitespace ⟨1⟩)).toString = "a"
  rw [takeWhileAux_single_a, takeRightWhileAux_single_a]
  decide

theorem normalizeRecipients_replicate_a (n : Nat) :
    normalizeRecipients (List.replicate n "a") = List.replicate n "a" := by
  rw [normalizeRecipients, List.map_replicate, trim_single_a]
  rw [List.filter_eq_self.mpr]
  intro a ha
  rw [List.eq_of_mem_replicate ha]
  decide

/-- Claim C6: with `n` the number of normalized recipients and chunk size
`b ≥ 1`, `send_email_to_many` issues exactly `⌈n / b⌉ = (n + b - 1) / b`
chunk sends; every chunk except the last has size `b` and the last has size
`n mod b` when `b` does not divide `n` (else `b`); the issued chunks do not
depend on which chunk sends fail (the gather starts every chunk task); and
for 120 recipients with `batch_size = 50` there are exactly 3 chunks of
sizes 50, 50 and 20. -/
theorem send_email_to_many_chunking (recipients : List String)
    (batch_size : Nat) (hb : 1 ≤ batch_size) :
    (send_email_to_many recipients batch_size
       = chunkBatches (normalizeRecipients recipients) batch_size) ∧
    ((send_email_to_many recipients batch_size).length
       = ((normalizeRecipients recipients).length + batch_size - 1)
          / batch_size) ∧
    (∀ (k : Nat)
       (hk : k < (chunkBatches (normalizeRecipients recipients)
                    batch_size).length),
       ((chunkBatches (normalizeRecipients recipients) batch_size).get
           ⟨k, hk⟩).length
         = if k + 1 < (chunkBatches (normalizeRecipients recipients)
                         batch_size).length
           then batch_size
           else if (normalizeRecipients recipients).length % batch_size = 0
             then batch_size
             else (normalizeRecipients recipients).length % batch_size) ∧
    (∀ ok : List String → Bool,
       (sendManyOutcomes recipients batch_size ok).map Prod.fst
         = send_email_to_many recipients batch_size) ∧
    ((send_email_to_many (List.replicate 120 "a") 50).map List.length
       = [50, 50, 20]) := by
  refine ⟨send_email_to_many_eq_chunks recipients batch_size, ?_, ?_, ?_, ?_⟩
  · rw [send_email_to_many_eq_chunks, chunkBatches_length]
  · intro k hk
    exact chunkBatches_sizes (normalizeRecipients recipients) batch_size hb k hk
  · intro ok
    rw [sendManyOutcomes, List.map_map]
    exact List.map_id'' (fun c => rfl) _
  · rw [send_email_to_many_eq_chunks, normalizeRecipients_replicate_a]
    decide

theorem send_email_to_many_chunking_witness :
    1 ≤ 50 ∧
    ((send_email_to_many (List.replicate 120 "a") 50
       = chunkBatches (normalizeRecipients (List.replicate 120 "a")) 50) ∧
    ((send_email_to_many (List.replicate 120 "a") 50).length
       = ((normalizeRecipients (List.replicate 120 "a")).length + 50 - 1)
          / 50) ∧
    (∀ (k : Nat)
       (hk : k < (chunkBatches (normalizeRecipients (List.replicate 120 "a"))
                    50).length),
       ((chunkBatches (normalizeRecipients (List.replicate 120 "a")) 50).get
           ⟨k, hk⟩).length
         = if k + 1 < (chunkBatches
                         (normalizeRecipients (List.replicate 120 "a"))
                         50).length
           then 50
           else if (normalizeRecipients
                     (List.replicate 120 "a")).length % 50 = 0
             then 50
             else (normalizeRecipients (List.replicate 120 "a")).length % 50) ∧
    (∀ ok : List String → Bool,
       (sendManyOutcomes (List.replicate 120 "a") 50 ok).map Prod.fst
         = send_email_to_many (List.replicate 120 "a") 50) ∧
    ((send_email_to_many (List.replicate 120 "a") 50).map List.length
       = [50, 50, 20])) :=
  ⟨by decide, send_email_to_many_chunking (List.replicate 120 "a") 50 (by decide)⟩

/-- Claim C9: the bulk sender strips each recipient and drops entries
blank after stripping; when nothing remains (all-blank input) it issues no
transport call at all and returns normally; every recipient that reaches a
chunk is the non-empty strip of some input entry. -/
theorem send_email_to_many_blank_noop (recipients : List String)
    (batch_size : Nat) :
    ((∀ r ∈ recipients, r.trim = "") →
       send_email_to_many recipients batch_size = []) ∧
    (∀ c ∈ send_email_to_many recipients batch_size, ∀ x ∈ c,
       x ≠ "" ∧ ∃ y ∈ recipients, x = y.trim) := by
  constructor
  · intro h
    rw [send_email_to_many]
    have hnil : normalizeRecipients recipients = [] :=
      (normalizeRecipients_eq_nil recipients).mpr h
    simp [hnil]
  · intro c hc x hx
    rw [send_email_to_many_eq_chunks] at hc
    exact (mem_normalizeRecipients recipients x).mp
      (chunkBatches_mem_subset _ _ c hc hx)

theorem send_email_to_many_blank_noop_witness :
    ((∀ r ∈ ["  ", ""], r.trim = "") →
       send_email_to_many ["  ", ""] 50 = []) ∧
    (∀ c ∈ send_email_to_many ["  ", ""] 50, ∀ x ∈ c,
       x ≠ "" ∧ ∃ y ∈ ["  ", ""], x = y.trim) :=
  send_email_to_many_blank_noop ["  ", ""] 50
